import Mathlib

/-!
Verification development for the `banksim` simulation orchestrator
(`banksim/model.py`).

The file shallowly embeds the orchestrator class `BankSim`: schema
initialization (`init_database`), construction (`__init__`), the per-step
operation (`step`) and the run loop (`run_model`).

Only the orchestrator module is available as source.  The pipeline stages
(`main_evaluate_solvency`, ..., `main_evaluate_liquidity`), the agent
classes, and the utility writers (`main_write_bank_ratios`,
`main_write_interbank_links`, `convert_result2dataframe`,
`insert_simulation_table`, `insert_agtbank_table`) are called by the
orchestrator but their bodies are not part of the sources; where their
behavior matters it is modelled from the specification and marked
`Modelled from the spec:` on the definition.  External boundary calls
(sqlite, the random source, wall clocks, and the fallible called
functions) are modelled through explicit environments: the environment
chooses clock readings, random indices, the state transformation a
pipeline stage performs, and at which call site (if any) an exception is
raised.  Quantifying a theorem over the environment quantifies over every
behavior of the missing parts; a concrete environment gives one concrete
executable run.
-/

namespace BankSim

/-- Wall-clock reading, second granularity, as used by
`datetime.now().strftime('%Y%m%d%H%M%S')`. -/
structure DateTime where
  year : Nat
  month : Nat
  day : Nat
  hour : Nat
  minute : Nat
  second : Nat
deriving DecidableEq

/-- Integer encoding of a timestamp in the form YYYYMMDDHHMMSS, the
result of `int(t.strftime('%Y%m%d%H%M%S'))`. -/
def strftimeYmdHMS (t : DateTime) : Nat :=
  ((((t.year * 100 + t.month) * 100 + t.day) * 100 + t.hour) * 100 + t.minute) * 100 + t.second

/-- The scheduler's heterogeneous agent population.  A `bank` carries its
unique id, its node in the interbank graph and its solvency flag
`bank_solvent` (the only Bank attribute the orchestrator reads).  A
`saver` carries its unique id and the bank node it was placed on.  A
`loan` carries its unique id, its position and its `bank_id`.  The
remaining balance-sheet attributes live in the agent classes, which are
not part of the sources and are never read by the orchestrator itself. -/
inductive Agent where
  | bank (uid : Nat) (pos : Nat) (bank_solvent : Bool)
  | saver (uid : Nat) (pos : Nat)
  | loan (uid : Nat) (pos : Nat) (bank_id : Nat)
deriving DecidableEq

/-- `isinstance(x, Bank)`. -/
def isBank : Agent → Bool
  | .bank _ _ _ => true
  | _ => false

/-- `isinstance(x, Saver)`. -/
def isSaver : Agent → Bool
  | .saver _ _ => true
  | _ => false

/-- `isinstance(x, Loan)`. -/
def isLoan : Agent → Bool
  | .loan _ _ _ => true
  | _ => false

/-- Grid position of an agent (the graph node it was placed on). -/
def agentPos : Agent → Nat
  | .bank _ p _ => p
  | .saver _ p => p
  | .loan _ p _ => p

/-- `len([x for x in self.schedule.agents if isinstance(x, Bank) and x.bank_solvent])`. -/
def solventCount (ags : List Agent) : Nat :=
  (ags.filter fun a =>
    match a with
    | .bank _ _ sv => sv
    | _ => false).length

/-- One entry of the accumulated bank-ratio list.  Modelled from the
spec: `main_write_bank_ratios` appends, for every bank and step, a record
tagged with the step number and the bank id; the computed ratio fields
are floating-point values not modelled here. -/
structure RatioRec where
  step_no : Nat
  bank_id : Nat
deriving DecidableEq

/-- One entry of the accumulated interbank-loan list.  Modelled from the
spec: `main_write_interbank_links` appends one record
(lender, borrower, amount, step) per realized interbank loan edge;
which edges exist is decided by the pipeline stages, so the records of a
given step are supplied by the environment. -/
structure IbRec where
  lender : Nat
  borrower : Nat
  amount : Nat
  step_no : Nat
deriving DecidableEq

/-- Modelled from the spec: the bank-ratio records appended for one step,
one record per Bank agent, tagged with the step number and bank id. -/
def bankRatioRecords (stepNo : Nat) (ags : List Agent) : List RatioRec :=
  ags.filterMap fun a =>
    match a with
    | .bank uid _ _ => some ⟨stepNo, uid⟩
    | _ => none

/-- One row of the simulation (run-record) table:
`insert_simulation_table(cursor, (simid, 'test', datetime.now(timezone.utc)))`. -/
structure SimulationRow where
  simid : Nat
  label : String
  created : DateTime
deriving DecidableEq

/-- One call to `insert_agtbank_table(cursor, simid, steps, banks)`:
the run id, the step number and the list of agents passed. -/
structure AgtBankRow where
  simid : Nat
  step_no : Nat
  banks : List Agent
deriving DecidableEq

/-- Outcomes of the five fallible boundary calls inside
`init_database`: `sqlite3.connect`, `conn.cursor()`,
`open(self.db_init_query, 'r')`, `db_cursor.executescript(fin.read())`
and `conn.commit()`.  A `false` field means that call raises. -/
structure InitDbEnv where
  connectOk : Bool
  cursorOk : Bool
  openOk : Bool
  execOk : Bool
  commitOk : Bool
deriving DecidableEq

/-- How `init_database` terminates: normally, with the generic
`Exception("SQLite DB init error")`, or with the `NameError` raised by
the `finally` block when it touches a local that was never bound. -/
inductive InitDbOutcome where
  | ok
  | dbInitError
  | nameError
deriving DecidableEq

/-- Observable result of one `init_database` call: how it terminated and
which handles were acquired and released. -/
structure InitDbResult where
  outcome : InitDbOutcome
  connOpened : Bool
  connClosed : Bool
  cursorOpened : Bool
  cursorClosed : Bool
deriving DecidableEq

/-- Embedding of `BankSim.init_database`.  The Python body is a
`try/except/finally`: the `except` clause replaces any error from the
`try` body with `Exception("SQLite DB init error")`; the `finally` clause
runs `db_cursor.close(); conn.close()`.  Python name-binding semantics
apply in the `finally` block: a local that was never assigned (because
the call that would have bound it raised) raises `NameError` at use, and
that `NameError` replaces the in-flight exception and aborts the rest of
the `finally` block.  The five branches below follow the five fallible
calls in source order. -/
def init_database (env : InitDbEnv) : InitDbResult :=
  if !env.connectOk then
    -- `sqlite3.connect` raised: `conn` and `db_cursor` are unbound; the
    -- `finally` block's `db_cursor.close()` raises NameError.
    ⟨.nameError, false, false, false, false⟩
  else if !env.cursorOk then
    -- `conn.cursor()` raised: `db_cursor` is unbound; the `finally`
    -- block's `db_cursor.close()` raises NameError and `conn.close()`
    -- is never reached, so the open connection is not released.
    ⟨.nameError, true, false, false, false⟩
  else if !env.openOk then
    -- `open(...)` raised: both handles are bound; the `except` clause
    -- raises the generic error and the `finally` block closes both.
    ⟨.dbInitError, true, true, true, true⟩
  else if !env.execOk then
    ⟨.dbInitError, true, true, true, true⟩
  else if !env.commitOk then
    ⟨.dbInitError, true, true, true, true⟩
  else
    ⟨.ok, true, true, true, true⟩

/-- The interbank network graph `self.G = nx.empty_graph(initial_bank)`:
node list and edge list. -/
structure Graph where
  nodes : List Nat
  edges : List (Nat × Nat)
deriving DecidableEq

/-- Errors that can escape `BankSim.__init__`: the `IndexError` of
`random.choice` on an empty sequence, the generic error of
`init_database`, and the `NameError` of its broken cleanup. -/
inductive PyErr where
  | indexError
  | dbInitError
  | nameError
deriving DecidableEq

/-- Environment of one `BankSim.__init__` call: whether
`os.path.isfile(self.sqlite_db)` holds, the outcomes of the boundary
calls inside `init_database` (used only when the file is missing), and
the random source: `pick k` determines the element the k-th
`random.choice` call returns. -/
structure ConstructEnv where
  dbFileExists : Bool
  initDb : InitDbEnv
  pick : Nat → Nat

/-- Embedding of `random.choice(list(self.G.nodes))`: raises
`IndexError` on an empty sequence, otherwise returns the element at an
environment-chosen index. -/
def randomChoice (pick : Nat) (l : List Nat) : Except PyErr Nat :=
  match l with
  | [] => .error .indexError
  | x :: xs => .ok ((x :: xs).get ⟨pick % (x :: xs).length, Nat.mod_lt pick (Nat.succ_pos xs.length)⟩)

/-- Modelled from the spec: `initialize_deposit_base` (stage 0) is not
part of the sources; it aggregates each Saver's deposit onto its bank's
liability side, mutating balance-sheet fields only — it neither creates
nor removes agents and does not touch the graph.  Balance-sheet fields
are not modelled, so on the modelled state it is the identity. -/
def initialize_deposit_base (ags : List Agent) : List Agent := ags

/-- Modelled from the spec: `initialize_loan_book` (stage 0) is not part
of the sources; it allocates the initial Loan pool across banks subject
to the capital-adequacy and reserve constraints, mutating balance-sheet
fields only — the agent population and the graph are unchanged. -/
def initialize_loan_book (ags : List Agent) : List Agent := ags

/-- The loop `for i in range(initial_saver)` of `__init__`: each Saver is
placed on a uniformly-random node of `G`.  `uid` is the next value of
`self.next_id()`, `k` the index of the next `random.choice` call. -/
def placeSavers (cenv : ConstructEnv) (nodes : List Nat) : Nat → Nat → Nat → Except PyErr (List Agent)
  | _, _, 0 => .ok []
  | uid, k, n + 1 => do
    let pos ← randomChoice (cenv.pick k) nodes
    let rest ← placeSavers cenv nodes (uid + 1) (k + 1) n
    pure (Agent.saver uid pos :: rest)

/-- The loop `for i in range(initial_loan)` of `__init__`: each Loan gets
`bank_id = random.choice(list(self.G.nodes))` and is placed on that
node. -/
def placeLoans (cenv : ConstructEnv) (nodes : List Nat) : Nat → Nat → Nat → Except PyErr (List Agent)
  | _, _, 0 => .ok []
  | uid, k, n + 1 => do
    let pos ← randomChoice (cenv.pick k) nodes
    let rest ← placeLoans cenv nodes (uid + 1) (k + 1) n
    pure (Agent.loan uid pos pos :: rest)

/-- The state a `BankSim.__init__` call builds: the stored scalar
parameters, the graph, the scheduler's agent population, the running
flag and the number of data-collection passes already performed.  The
floating-point rate parameters (`rfree`, `reserve_rates`, `libor_rate`,
`car`, `min_reserves_ratio`, `initial_equity`) are stored unread by the
orchestrator and passed opaquely to the missing pipeline stages; no
claim concerns their values, so they are not modelled. -/
structure BankSimModel where
  height : Nat
  width : Nat
  initial_saver : Nat
  initial_loan : Nat
  initial_bank : Nat
  bankrupt_liquidation : Nat
  G : Graph
  agents : List Agent
  running : Bool
  collects : Nat
deriving DecidableEq

/-- Embedding of `BankSim.__init__`, in source order: build
`nx.empty_graph(initial_bank)`, the grid, the scheduler and the data
collector; run `init_database` when the configured database file does
not exist (any error aborts construction); create and place
`initial_bank` Bank agents on nodes `0..initial_bank-1` (solvent, ids
from `next_id()` starting at 1); place `initial_saver` Savers and
`initial_loan` Loans on random nodes; run stage 0; set `running` and
collect once. -/
def buildBankSim (cenv : ConstructEnv) (height width initial_saver initial_loan initial_bank : Nat) :
    Except PyErr BankSimModel := do
  let G : Graph := ⟨List.range initial_bank, []⟩
  if !cenv.dbFileExists then
    match (init_database cenv.initDb).outcome with
    | .ok => pure ()
    | .dbInitError => throw .dbInitError
    | .nameError => throw .nameError
  let banks := (List.range initial_bank).map fun i => Agent.bank (i + 1) i true
  let savers ← placeSavers cenv G.nodes (initial_bank + 1) 0 initial_saver
  let loans ← placeLoans cenv G.nodes (initial_bank + initial_saver + 1) initial_saver initial_loan
  let agents := initialize_loan_book (initialize_deposit_base (banks ++ savers ++ loans))
  pure
    { height := height
      width := width
      initial_saver := initial_saver
      initial_loan := initial_loan
      initial_bank := initial_bank
      bankrupt_liquidation := 1
      G := G
      agents := agents
      running := true
      collects := 1 }

/-- The call sites of `BankSim.step`, in source order.  `sqlite3_connect`
covers the two lines `self.conn = sqlite3.connect(...)` and
`self.db_cursor = self.conn.cursor()`; `mint_simid` is the assignment
`self.simid = int(datetime.now().strftime('%Y%m%d%H%M%S'))`;
`schedule_step` is `self.schedule.step()` and `collect` is
`self.datacollector.collect(self)`. -/
inductive Action where
  | sqlite3_connect
  | mint_simid
  | insert_simulation_table
  | main_evaluate_solvency
  | main_second_round_effects
  | main_risk_weight_optimization
  | main_pay_dividends
  | main_reset_insolvent_loans
  | main_build_loan_book_locally
  | main_build_loan_book_globally
  | main_evaluate_liquidity
  | main_write_bank_ratios
  | main_write_interbank_links
  | insert_agtbank_table
  | commit
  | schedule_step
  | collect
deriving DecidableEq

/-- Is this action one of the seven pipeline-stage calls of the step body
(stages 1 through 7, with 6 split into 6a and 6b)? -/
def isStage : Action → Bool
  | .main_evaluate_solvency => true
  | .main_second_round_effects => true
  | .main_risk_weight_optimization => true
  | .main_pay_dividends => true
  | .main_reset_insolvent_loans => true
  | .main_build_loan_book_locally => true
  | .main_build_loan_book_globally => true
  | .main_evaluate_liquidity => true
  | _ => false

/-- The instance state of a `BankSim` object that `step` reads and
writes: the scheduler's step counter, `self.simid`, the persistence
connection (how many times one was opened), the rows passed to
`insert_simulation_table` and `insert_agtbank_table`, the agent
population, and counters for `conn.commit()` and data collection. -/
structure SimState where
  scheduleSteps : Nat
  simid : Option Nat
  connOpens : Nat
  runRecordInserts : List SimulationRow
  agents : List Agent
  snapshots : List AgtBankRow
  commits : Nat
  collects : Nat
deriving DecidableEq

/-- The class-level mutable state of `BankSim`: the two accumulation
lists `lst_bank_ratio` and `lst_ibloan`, initialized once with
`list()` in the class body and shared by every instance of the class in
the process. -/
structure ClassState where
  lst_bank_ratio : List RatioRec
  lst_ibloan : List IbRec
deriving DecidableEq

/-- Environment of a run: the two wall clocks read on call number `i`
(`localNow` is `datetime.now()` with no timezone argument, `utcNow` is
`datetime.now(timezone.utc)`); `fault i` names the call site, if any, at
which call number `i` of `step()` raises (the exception surfaces at that
site and the rest of the step body is skipped); `stageEffect i a` is the
state transformation pipeline stage `a` applies to the agent population
on call `i` (the stage bodies are not part of the sources); and
`ibRecords i` is the list of interbank-link records
`main_write_interbank_links` appends on call `i`. -/
structure Env where
  localNow : Nat → DateTime
  utcNow : Nat → DateTime
  fault : Nat → Option Action
  stageEffect : Nat → Action → List Agent → List Agent
  ibRecords : Nat → List IbRec

/-- Effect of one (non-raising) call site of the step body on the
instance and class state, in direct correspondence with the source
lines of `BankSim.step`. -/
def applyAction (env : Env) (i : Nat) (a : Action) (s : SimState) (cs : ClassState) :
    SimState × ClassState :=
  match a with
  | .sqlite3_connect => ({ s with connOpens := s.connOpens + 1 }, cs)
  | .mint_simid => ({ s with simid := some (strftimeYmdHMS (env.localNow i)) }, cs)
  | .insert_simulation_table =>
      ({ s with runRecordInserts :=
          s.runRecordInserts ++ [⟨(s.simid.getD 0), "test", env.utcNow i⟩] }, cs)
  | .main_evaluate_solvency
  | .main_second_round_effects
  | .main_risk_weight_optimization
  | .main_pay_dividends
  | .main_reset_insolvent_loans
  | .main_build_loan_book_locally
  | .main_build_loan_book_globally
  | .main_evaluate_liquidity =>
      ({ s with agents := env.stageEffect i a s.agents }, cs)
  | .main_write_bank_ratios =>
      (s, { cs with lst_bank_ratio := cs.lst_bank_ratio ++ bankRatioRecords s.scheduleSteps s.agents })
  | .main_write_interbank_links =>
      (s, { cs with lst_ibloan := cs.lst_ibloan ++ env.ibRecords i })
  | .insert_agtbank_table =>
      ({ s with snapshots :=
          s.snapshots ++ [⟨(s.simid.getD 0), s.scheduleSteps, s.agents.filter isBank⟩] }, cs)
  | .commit => ({ s with commits := s.commits + 1 }, cs)
  | .schedule_step => ({ s with scheduleSteps := s.scheduleSteps + 1 }, cs)
  | .collect => ({ s with collects := s.collects + 1 }, cs)

/-- Result of one `step()` call: final instance and class state, the
trace of call sites that executed, and whether the call raised. -/
structure StepResult where
  simState : SimState
  classState : ClassState
  trace : List Action
  raised : Bool
deriving DecidableEq

/-- Execute the call sites of the step body in order; if the environment
makes one of them raise, execution stops there (effects of earlier
sites persist, the raising site has no effect). -/
def execActions (env : Env) (i : Nat) :
    List Action → SimState → ClassState → List Action → StepResult
  | [], s, cs, tr => ⟨s, cs, tr, false⟩
  | a :: rest, s, cs, tr =>
      if env.fault i = some a then ⟨s, cs, tr, true⟩
      else
        let p := applyAction env i a s cs
        execActions env i rest p.1 p.2 (tr ++ [a])

/-- The first-step block of `BankSim.step`, executed only when
`self.schedule.steps == 0`: open a fresh connection and cursor, mint
the run id, insert the run record. -/
def firstStepOps : List Action :=
  [.sqlite3_connect, .mint_simid, .insert_simulation_table]

/-- The unconditional tail of `BankSim.step`, in source order: the seven
pipeline stages, the two result-list writers, the agent-bank snapshot
insert, the commit, the scheduler advance, and the data collection. -/
def mainStepOps : List Action :=
  [.main_evaluate_solvency, .main_second_round_effects, .main_risk_weight_optimization,
   .main_pay_dividends, .main_reset_insolvent_loans, .main_build_loan_book_locally,
   .main_build_loan_book_globally, .main_evaluate_liquidity,
   .main_write_bank_ratios, .main_write_interbank_links,
   .insert_agtbank_table, .commit, .schedule_step, .collect]

/-- The call sites a `step()` call runs through, depending on whether
the scheduler's step counter is 0 at entry. -/
def stepActions (firstStep : Bool) : List Action :=
  (if firstStep then firstStepOps else []) ++ mainStepOps

/-- Embedding of `BankSim.step` for call number `i`. -/
def step (env : Env) (i : Nat) (s : SimState) (cs : ClassState) : StepResult :=
  execActions env i (stepActions (s.scheduleSteps = 0)) s cs []

/-- The agent population after the seven pipeline stages of call `i`,
applied in source order. -/
def applyStages (env : Env) (i : Nat) (ags : List Agent) : List Agent :=
  env.stageEffect i .main_evaluate_liquidity
    (env.stageEffect i .main_build_loan_book_globally
      (env.stageEffect i .main_build_loan_book_locally
        (env.stageEffect i .main_reset_insolvent_loans
          (env.stageEffect i .main_pay_dividends
            (env.stageEffect i .main_risk_weight_optimization
              (env.stageEffect i .main_second_round_effects
                (env.stageEffect i .main_evaluate_solvency ags)))))))

/-- The run id recorded by the snapshot of call `i`: the freshly minted
id on a first call, the stored `self.simid` otherwise. -/
def simidAtSnapshot (env : Env) (i : Nat) (s : SimState) : Nat :=
  if s.scheduleSteps = 0 then strftimeYmdHMS (env.localNow i) else s.simid.getD 0

/-- Observable output of the run loop: a progress `print` (iteration
index and current solvent-bank count), a `logger.info` of the formatted
traceback of a contained per-step error, or the terminal
`logger.info("All banks are bankrupt!")`. -/
inductive LogMsg where
  | progress (i : Nat) (solvent : Nat)
  | traceback (i : Nat)
  | allBankrupt
deriving DecidableEq

/-- Result of the run loop: final instance and class state, the emitted
log, the number of `step()` calls performed, and two histories kept as
specification ghost state — the solvent-bank count observed by the
loop's check after each call, and whether each call raised. -/
structure LoopResult where
  simState : SimState
  classState : ClassState
  log : List LogMsg
  calls : Nat
  solvHist : List Nat
  raisedHist : List Bool
deriving DecidableEq

/-- The loop `for i in range(step_count)` of `run_model`, written with
an explicit count of remaining iterations (`rem` plus the entry index
`i` equals `step_count` on every call reached from `run_model`).  Each
iteration prints progress on every 10th and on the final index, runs
`step()` under `try/except` (a raise is logged as a formatted traceback
and contained), then breaks after logging the terminal notice if no
solvent bank remains. -/
def runLoop (env : Env) (stepCount : Nat) : Nat → Nat → SimState → ClassState → LoopResult
  | 0, _, s, cs => ⟨s, cs, [], 0, [], []⟩
  | rem + 1, i, s, cs =>
      let pLog : List LogMsg :=
        if i % 10 = 0 ∨ i + 1 = stepCount then [.progress i (solventCount s.agents)] else []
      let r := step env i s cs
      let eLog : List LogMsg := if r.raised then [.traceback i] else []
      let n := solventCount r.simState.agents
      if n = 0 then
        ⟨r.simState, r.classState, pLog ++ eLog ++ [.allBankrupt], 1, [n], [r.raised]⟩
      else
        let rest := runLoop env stepCount rem (i + 1) r.simState r.classState
        ⟨rest.simState, rest.classState, pLog ++ eLog ++ rest.log, 1 + rest.calls,
          n :: rest.solvHist, r.raised :: rest.raisedHist⟩

/-- A tabular dataset as produced for one accumulated list. -/
structure DataFrame (α : Type) where
  rows : List α
deriving DecidableEq

/-- Modelled from the spec: `convert_result2dataframe` is not part of
the sources; it converts the two accumulated lists to two tabular
datasets by a pure, order-preserving transformation with no filtering —
rows are exactly the accumulated records, in order. -/
def convert_result2dataframe (l1 : List RatioRec) (l2 : List IbRec) :
    DataFrame RatioRec × DataFrame IbRec :=
  (⟨l1⟩, ⟨l2⟩)

/-- Result of `run_model`: the returned pair of tabular datasets
(`df_bank, df_ibloan`), together with the observable final state, log
and ghost histories of the loop. -/
structure RunResult where
  dfBank : DataFrame RatioRec
  dfIbloan : DataFrame IbRec
  simState : SimState
  classState : ClassState
  log : List LogMsg
  calls : Nat
  solvHist : List Nat
  raisedHist : List Bool
deriving DecidableEq

/-- Embedding of `BankSim.run_model`: run the loop for `step_count`
iterations starting at index 0, then convert the two accumulated lists
and return both. -/
def run_model (env : Env) (stepCount : Nat) (s : SimState) (cs : ClassState) : RunResult :=
  let r := runLoop env stepCount stepCount 0 s cs
  let dfs := convert_result2dataframe r.classState.lst_bank_ratio r.classState.lst_ibloan
  ⟨dfs.1, dfs.2, r.simState, r.classState, r.log, r.calls, r.solvHist, r.raisedHist⟩

/-- The instance state of a freshly constructed `BankSim`: scheduler
counter 0, no run id, no connection, no inserts, the constructed agent
population, and the single data-collection pass of `__init__`. -/
def toSimState (m : BankSimModel) : SimState :=
  ⟨0, none, 0, [], m.agents, [], 0, 1⟩

/-- A sample UTC clock reading. -/
def dtUtc0 : DateTime := ⟨2026, 10, 12, 0, 0, 0⟩

/-- A sample local clock reading in a UTC+9 timezone, taken at the same
instant as `dtUtc0`. -/
def dtLocal0 : DateTime := ⟨2026, 10, 12, 9, 0, 0⟩

/-- A population of one solvent bank. -/
def oneBank : List Agent := [.bank 1 0 true]

/-- A freshly constructed instance state over `oneBank`. -/
def sInit : SimState := ⟨0, none, 0, [], oneBank, [], 0, 1⟩

/-- Empty accumulation lists, as `list()` leaves them at class creation. -/
def csInit : ClassState := ⟨[], []⟩

/-- An environment in which no call raises, the pipeline stages leave
the agent population unchanged, and no interbank links are recorded. -/
def envNoFault : Env :=
  ⟨fun _ => dtLocal0, fun _ => dtUtc0, fun _ => none, fun _ _ ags => ags, fun _ => []⟩

/-- Like `envNoFault`, except that on step call number 0 the stage-1
call `main_evaluate_solvency` raises. -/
def envFaultFirst : Env :=
  { envNoFault with fault := fun i => if i = 0 then some .main_evaluate_solvency else none }

/-- Like `envNoFault`, except that every pipeline stage leaves the
single bank insolvent. -/
def envAllInsolvent : Env :=
  { envNoFault with stageEffect := fun _ _ _ => [.bank 1 0 false] }

/-- A construction environment: the configured database file exists (so
`init_database` is skipped) and every `random.choice` picks index 0. -/
def cenvSmall : ConstructEnv := ⟨true, ⟨true, true, true, true, true⟩, fun _ => 0⟩

/-- The model `buildBankSim cenvSmall 20 20 0 0 1` constructs: one bank,
no savers, no loans. -/
def mSmall : BankSimModel := ⟨20, 20, 0, 0, 1, 1, ⟨[0], []⟩, [.bank 1 0 true], true, 1⟩

theorem applyAction_runRecordInserts (env : Env) (i : Nat) (a : Action) (s : SimState)
    (cs : ClassState) (ha : a ≠ Action.insert_simulation_table) :
    (applyAction env i a s cs).1.runRecordInserts = s.runRecordInserts := by
  cases a <;> simp_all [applyAction]

theorem applyAction_connOpens (env : Env) (i : Nat) (a : Action) (s : SimState)
    (cs : ClassState) (ha : a ≠ Action.sqlite3_connect) :
    (applyAction env i a s cs).1.connOpens = s.connOpens := by
  cases a <;> simp_all [applyAction]

theorem applyAction_simid (env : Env) (i : Nat) (a : Action) (s : SimState)
    (cs : ClassState) (ha : a ≠ Action.mint_simid) :
    (applyAction env i a s cs).1.simid = s.simid := by
  cases a <;> simp_all [applyAction]

theorem applyAction_scheduleSteps_le (env : Env) (i : Nat) (a : Action) (s : SimState)
    (cs : ClassState) : s.scheduleSteps ≤ (applyAction env i a s cs).1.scheduleSteps := by
  cases a <;> simp [applyAction, Nat.le_succ]

theorem execActions_runRecordInserts (env : Env) (i : Nat) :
    ∀ (acts : List Action) (s : SimState) (cs : ClassState) (tr : List Action),
      Action.insert_simulation_table ∉ acts →
      (execActions env i acts s cs tr).simState.runRecordInserts = s.runRecordInserts := by
  intro acts
  induction acts with
  | nil => intro s cs tr _; rfl
  | cons a rest ih =>
    intro s cs tr h
    simp only [List.mem_cons, not_or] at h
    by_cases hf : env.fault i = some a
    · simp [execActions, hf]
    · simp only [execActions, if_neg hf]
      rw [ih _ _ _ h.2, applyAction_runRecordInserts env i a s cs (fun hh => h.1 hh.symm)]

theorem execActions_connOpens (env : Env) (i : Nat) :
    ∀ (acts : List Action) (s : SimState) (cs : ClassState) (tr : List Action),
      Action.sqlite3_connect ∉ acts →
      (execActions env i acts s cs tr).simState.connOpens = s.connOpens := by
  intro acts
  induction acts with
  | nil => intro s cs tr _; rfl
  | cons a rest ih =>
    intro s cs tr h
    simp only [List.mem_cons, not_or] at h
    by_cases hf : env.fault i = some a
    · simp [execActions, hf]
    · simp only [execActions, if_neg hf]
      rw [ih _ _ _ h.2, applyAction_connOpens env i a s cs (fun hh => h.1 hh.symm)]

theorem execActions_simid (env : Env) (i : Nat) :
    ∀ (acts : List Action) (s : SimState) (cs : ClassState) (tr : List Action),
      Action.mint_simid ∉ acts →
      (execActions env i acts s cs tr).simState.simid = s.simid := by
  intro acts
  induction acts with
  | nil => intro s cs tr _; rfl
  | cons a rest ih =>
    intro s cs tr h
    simp only [List.mem_cons, not_or] at h
    by_cases hf : env.fault i = some a
    · simp [execActions, hf]
    · simp only [execActions, if_neg hf]
      rw [ih _ _ _ h.2, applyAction_simid env i a s cs (fun hh => h.1 hh.symm)]

theorem execActions_scheduleSteps_le (env : Env) (i : Nat) :
    ∀ (acts : List Action) (s : SimState) (cs : ClassState) (tr : List Action),
      s.scheduleSteps ≤ (execActions env i acts s cs tr).simState.scheduleSteps := by
  intro acts
  induction acts with
  | nil => intro s cs tr; exact le_rfl
  | cons a rest ih =>
    intro s cs tr
    by_cases hf : env.fault i = some a
    · simp [execActions, hf]
    · simp only [execActions, if_neg hf]
      exact le_trans (applyAction_scheduleSteps_le env i a s cs) (ih _ _ _)

theorem applyAction_lst_bank_ratio (env : Env) (i : Nat) (a : Action) (s : SimState)
    (cs : ClassState) :
    ∃ t, (applyAction env i a s cs).2.lst_bank_ratio = cs.lst_bank_ratio ++ t := by
  cases a <;> first | exact ⟨_, rfl⟩ | exact ⟨[], by simp [applyAction]⟩

theorem applyAction_lst_ibloan (env : Env) (i : Nat) (a : Action) (s : SimState)
    (cs : ClassState) :
    ∃ t, (applyAction env i a s cs).2.lst_ibloan = cs.lst_ibloan ++ t := by
  cases a <;> first | exact ⟨_, rfl⟩ | exact ⟨[], by simp [applyAction]⟩

theorem execActions_lst_bank_ratio (env : Env) (i : Nat) :
    ∀ (acts : List Action) (s : SimState) (cs : ClassState) (tr : List Action),
      ∃ t, (execActions env i acts s cs tr).classState.lst_bank_ratio = cs.lst_bank_ratio ++ t := by
  intro acts
  induction acts with
  | nil => intro s cs tr; exact ⟨[], by simp [execActions]⟩
  | cons a rest ih =>
    intro s cs tr
    by_cases hf : env.fault i = some a
    · exact ⟨[], by simp [execActions, hf]⟩
    · simp only [execActions, if_neg hf]
      obtain ⟨t1, h1⟩ := applyAction_lst_bank_ratio env i a s cs
      obtain ⟨t2, h2⟩ := ih (applyAction env i a s cs).1 (applyAction env i a s cs).2 (tr ++ [a])
      exact ⟨t1 ++ t2, by rw [h2, h1, List.append_assoc]⟩

theorem execActions_lst_ibloan (env : Env) (i : Nat) :
    ∀ (acts : List Action) (s : SimState) (cs : ClassState) (tr : List Action),
      ∃ t, (execActions env i acts s cs tr).classState.lst_ibloan = cs.lst_ibloan ++ t := by
  intro acts
  induction acts with
  | nil => intro s cs tr; exact ⟨[], by simp [execActions]⟩
  | cons a rest ih =>
    intro s cs tr
    by_cases hf : env.fault i = some a
    · exact ⟨[], by simp [execActions, hf]⟩
    · simp only [execActions, if_neg hf]
      obtain ⟨t1, h1⟩ := applyAction_lst_ibloan env i a s cs
      obtain ⟨t2, h2⟩ := ih (applyAction env i a s cs).1 (applyAction env i a s cs).2 (tr ++ [a])
      exact ⟨t1 ++ t2, by rw [h2, h1, List.append_assoc]⟩

theorem step_noFault_first (env : Env) (i : Nat) (s : SimState) (cs : ClassState)
    (hf : env.fault i = none) (h0 : s.scheduleSteps = 0) :
    step env i s cs =
      ⟨⟨1, some (strftimeYmdHMS (env.localNow i)), s.connOpens + 1,
        s.runRecordInserts ++ [⟨strftimeYmdHMS (env.localNow i), "test", env.utcNow i⟩],
        applyStages env i s.agents,
        s.snapshots ++
          [⟨strftimeYmdHMS (env.localNow i), 0, (applyStages env i s.agents).filter isBank⟩],
        s.commits + 1, s.collects + 1⟩,
      ⟨cs.lst_bank_ratio ++ bankRatioRecords 0 (applyStages env i s.agents),
        cs.lst_ibloan ++ env.ibRecords i⟩,
      stepActions true, false⟩ := by
  simp [step, h0, stepActions, firstStepOps, mainStepOps, execActions, hf, applyAction, applyStages]

theorem step_noFault_later (env : Env) (i : Nat) (s : SimState) (cs : ClassState)
    (hf : env.fault i = none) (h0 : ¬s.scheduleSteps = 0) :
    step env i s cs =
      ⟨⟨s.scheduleSteps + 1, s.simid, s.connOpens, s.runRecordInserts,
        applyStages env i s.agents,
        s.snapshots ++
          [⟨s.simid.getD 0, s.scheduleSteps, (applyStages env i s.agents).filter isBank⟩],
        s.commits + 1, s.collects + 1⟩,
      ⟨cs.lst_bank_ratio ++ bankRatioRecords s.scheduleSteps (applyStages env i s.agents),
        cs.lst_ibloan ++ env.ibRecords i⟩,
      stepActions false, false⟩ := by
  simp [step, h0, stepActions, firstStepOps, mainStepOps, execActions, hf, applyAction, applyStages]

theorem step_preserve (env : Env) (i : Nat) (s : SimState) (cs : ClassState)
    (h : s.scheduleSteps ≠ 0) :
    (step env i s cs).simState.runRecordInserts = s.runRecordInserts ∧
    (step env i s cs).simState.connOpens = s.connOpens ∧
    (step env i s cs).simState.simid = s.simid ∧
    s.scheduleSteps ≤ (step env i s cs).simState.scheduleSteps := by
  have hb : decide (s.scheduleSteps = 0) = false := decide_eq_false h
  simp only [step, hb, stepActions, Bool.false_eq_true, if_false, List.nil_append]
  refine ⟨?_, ?_, ?_, ?_⟩
  · exact execActions_runRecordInserts env i mainStepOps s cs [] (by decide)
  · exact execActions_connOpens env i mainStepOps s cs [] (by decide)
  · exact execActions_simid env i mainStepOps s cs [] (by decide)
  · exact execActions_scheduleSteps_le env i mainStepOps s cs []

theorem step_lst_extends (env : Env) (i : Nat) (s : SimState) (cs : ClassState) :
    (∃ t, (step env i s cs).classState.lst_bank_ratio = cs.lst_bank_ratio ++ t) ∧
    (∃ t, (step env i s cs).classState.lst_ibloan = cs.lst_ibloan ++ t) :=
  ⟨execActions_lst_bank_ratio env i _ s cs [], execActions_lst_ibloan env i _ s cs []⟩

theorem runLoop_calls_le (env : Env) (sc : Nat) :
    ∀ (rem i : Nat) (s : SimState) (cs : ClassState), (runLoop env sc rem i s cs).calls ≤ rem := by
  intro rem
  induction rem with
  | zero => intro i s cs; exact Nat.le_refl 0
  | succ m ih =>
    intro i s cs
    simp only [runLoop]
    by_cases h : solventCount (step env i s cs).simState.agents = 0
    · rw [if_pos h]
      exact Nat.succ_le_succ (Nat.zero_le m)
    · rw [if_neg h]
      have hh := ih (i + 1) (step env i s cs).simState (step env i s cs).classState
      show 1 + (runLoop env sc m (i + 1) (step env i s cs).simState
        (step env i s cs).classState).calls ≤ m + 1
      omega

theorem runLoop_solvHist_length (env : Env) (sc : Nat) :
    ∀ (rem i : Nat) (s : SimState) (cs : ClassState),
      (runLoop env sc rem i s cs).solvHist.length = (runLoop env sc rem i s cs).calls := by
  intro rem
  induction rem with
  | zero => intro i s cs; rfl
  | succ m ih =>
    intro i s cs
    simp only [runLoop]
    by_cases h : solventCount (step env i s cs).simState.agents = 0
    · rw [if_pos h]; rfl
    · rw [if_neg h]
      have hh := ih (i + 1) (step env i s cs).simState (step env i s cs).classState
      show ((solventCount (step env i s cs).simState.agents) ::
        (runLoop env sc m (i + 1) (step env i s cs).simState
          (step env i s cs).classState).solvHist).length = _
      simp only [List.length_cons]
      omega

theorem runLoop_raisedHist_length (env : Env) (sc : Nat) :
    ∀ (rem i : Nat) (s : SimState) (cs : ClassState),
      (runLoop env sc rem i s cs).raisedHist.length = (runLoop env sc rem i s cs).calls := by
  intro rem
  induction rem with
  | zero => intro i s cs; rfl
  | succ m ih =>
    intro i s cs
    simp only [runLoop]
    by_cases h : solventCount (step env i s cs).simState.agents = 0
    · rw [if_pos h]; rfl
    · rw [if_neg h]
      have hh := ih (i + 1) (step env i s cs).simState (step env i s cs).classState
      show ((step env i s cs).raised ::
        (runLoop env sc m (i + 1) (step env i s cs).simState
          (step env i s cs).classState).raisedHist).length = _
      simp only [List.length_cons]
      omega

theorem runLoop_calls_pos (env : Env) (sc : Nat) :
    ∀ (rem i : Nat) (s : SimState) (cs : ClassState), 1 ≤ rem →
      1 ≤ (runLoop env sc rem i s cs).calls := by
  intro rem
  cases rem with
  | zero => intro i s cs h; omega
  | succ m =>
    intro i s cs _
    simp only [runLoop]
    by_cases h : solventCount (step env i s cs).simState.agents = 0
    · rw [if_pos h]
    · rw [if_neg h]
      show 1 ≤ 1 + _
      omega

theorem count_aB_progress (c : Prop) [Decidable c] (i n : Nat) :
    (if c then [LogMsg.progress i n] else []).count LogMsg.allBankrupt = 0 := by
  split <;> simp

theorem count_aB_traceback (c : Prop) [Decidable c] (i : Nat) :
    (if c then [LogMsg.traceback i] else []).count LogMsg.allBankrupt = 0 := by
  split <;> simp

theorem runLoop_stop_at_zero (env : Env) (sc : Nat) :
    ∀ (rem i : Nat) (s : SimState) (cs : ClassState) (k : Nat),
      (runLoop env sc rem i s cs).solvHist[k]? = some 0 →
      (runLoop env sc rem i s cs).calls = k + 1 := by
  intro rem
  induction rem with
  | zero => intro i s cs k hk; simp [runLoop] at hk
  | succ m ih =>
    intro i s cs k
    simp only [runLoop]
    by_cases h : solventCount (step env i s cs).simState.agents = 0
    · rw [if_pos h]
      cases k with
      | zero => intro _; rfl
      | succ k => intro hk; simp at hk
    · rw [if_neg h]
      cases k with
      | zero =>
        intro hk
        simp only [List.getElem?_cons_zero, Option.some.injEq] at hk
        exact absurd hk h
      | succ k =>
        intro hk
        simp only [List.getElem?_cons_succ] at hk
        have hr := ih (i + 1) (step env i s cs).simState (step env i s cs).classState k hk
        show 1 + (runLoop env sc m (i + 1) (step env i s cs).simState
          (step env i s cs).classState).calls = k + 1 + 1
        omega

theorem runLoop_count_allBankrupt (env : Env) (sc : Nat) :
    ∀ (rem i : Nat) (s : SimState) (cs : ClassState),
      (runLoop env sc rem i s cs).log.count LogMsg.allBankrupt =
        (if 0 ∈ (runLoop env sc rem i s cs).solvHist then 1 else 0) := by
  intro rem
  induction rem with
  | zero => intro i s cs; simp [runLoop]
  | succ m ih =>
    intro i s cs
    simp only [runLoop]
    by_cases h : solventCount (step env i s cs).simState.agents = 0
    · rw [if_pos h]
      show ((_ ++ _) ++ [LogMsg.allBankrupt]).count LogMsg.allBankrupt = _
      rw [List.count_append, List.count_append, count_aB_progress, count_aB_traceback]
      simp [h]
    · rw [if_neg h]
      have hne : ¬(0 = solventCount (step env i s cs).simState.agents) := fun hh => h hh.symm
      show (((_ : List LogMsg) ++ _) ++ _).count LogMsg.allBankrupt = _
      rw [List.count_append, List.count_append, count_aB_progress, count_aB_traceback]
      simp only [List.mem_cons, hne, false_or, Nat.zero_add]
      exact ih (i + 1) (step env i s cs).simState (step env i s cs).classState

theorem runLoop_last_allBankrupt (env : Env) (sc : Nat) :
    ∀ (rem i : Nat) (s : SimState) (cs : ClassState),
      0 ∈ (runLoop env sc rem i s cs).solvHist →
      (runLoop env sc rem i s cs).log.getLast? = some LogMsg.allBankrupt := by
  intro rem
  induction rem with
  | zero => intro i s cs hm; simp [runLoop] at hm
  | succ m ih =>
    intro i s cs
    simp only [runLoop]
    by_cases h : solventCount (step env i s cs).simState.agents = 0
    · rw [if_pos h]
      intro _
      show ((_ ++ _) ++ [LogMsg.allBankrupt]).getLast? = some LogMsg.allBankrupt
      rw [List.getLast?_append_of_ne_nil _ (by simp)]
      rfl
    · rw [if_neg h]
      intro hm
      have hne : ¬(0 = solventCount (step env i s cs).simState.agents) := fun hh => h hh.symm
      simp only [List.mem_cons, hne, false_or] at hm
      have hl := ih (i + 1) (step env i s cs).simState (step env i s cs).classState hm
      have hnil : (runLoop env sc m (i + 1) (step env i s cs).simState
          (step env i s cs).classState).log ≠ [] := by
        intro hh; rw [hh] at hl; simp at hl
      show (((_ : List LogMsg) ++ _) ++ _).getLast? = some LogMsg.allBankrupt
      rw [List.getLast?_append_of_ne_nil _ hnil]
      exact hl

theorem runLoop_traceback_logged (env : Env) (sc : Nat) :
    ∀ (rem i : Nat) (s : SimState) (cs : ClassState) (k : Nat),
      (runLoop env sc rem i s cs).raisedHist[k]? = some true →
      LogMsg.traceback (i + k) ∈ (runLoop env sc rem i s cs).log := by
  intro rem
  induction rem with
  | zero => intro i s cs k hk; simp [runLoop] at hk
  | succ m ih =>
    intro i s cs k
    simp only [runLoop]
    by_cases h : solventCount (step env i s cs).simState.agents = 0
    · rw [if_pos h]
      cases k with
      | zero =>
        intro hk
        simp only [List.getElem?_cons_zero, Option.some.injEq] at hk
        simp [hk]
      | succ k => intro hk; simp at hk
    · rw [if_neg h]
      cases k with
      | zero =>
        intro hk
        simp only [List.getElem?_cons_zero, Option.some.injEq] at hk
        simp [hk]
      | succ k =>
        intro hk
        simp only [List.getElem?_cons_succ] at hk
        have hr := ih (i + 1) (step env i s cs).simState (step env i s cs).classState k hk
        have harith : i + (k + 1) = i + 1 + k := by omega
        rw [harith]
        exact List.mem_append_right _ hr

theorem runLoop_continue (env : Env) (sc : Nat) :
    ∀ (rem i : Nat) (s : SimState) (cs : ClassState) (k n : Nat), k + 1 < rem →
      (runLoop env sc rem i s cs).solvHist[k]? = some n → n ≠ 0 →
      k + 1 < (runLoop env sc rem i s cs).calls := by
  intro rem
  induction rem with
  | zero => intro i s cs k n h1 _ _; exact absurd h1 (Nat.not_lt_zero _)
  | succ m ih =>
    intro i s cs k n h1
    simp only [runLoop]
    by_cases h : solventCount (step env i s cs).simState.agents = 0
    · rw [if_pos h]
      cases k with
      | zero =>
        intro hk hn
        simp only [List.getElem?_cons_zero, Option.some.injEq] at hk
        exact absurd (hk ▸ h) hn
      | succ k => intro hk _; simp at hk
    · rw [if_neg h]
      cases k with
      | zero =>
        intro _ _
        have := runLoop_calls_pos env sc m (i + 1) (step env i s cs).simState
          (step env i s cs).classState (by omega)
        show 0 + 1 < 1 + _
        omega
      | succ k =>
        intro hk hn
        simp only [List.getElem?_cons_succ] at hk
        have hr := ih (i + 1) (step env i s cs).simState (step env i s cs).classState k n
          (by omega) hk hn
        show k + 1 + 1 < 1 + _
        omega

theorem runLoop_preserve (env : Env) (sc : Nat) :
    ∀ (rem i : Nat) (s : SimState) (cs : ClassState), s.scheduleSteps ≠ 0 →
      (runLoop env sc rem i s cs).simState.runRecordInserts = s.runRecordInserts ∧
      (runLoop env sc rem i s cs).simState.connOpens = s.connOpens ∧
      (runLoop env sc rem i s cs).simState.simid = s.simid := by
  intro rem
  induction rem with
  | zero => intro i s cs _; exact ⟨rfl, rfl, rfl⟩
  | succ m ih =>
    intro i s cs hs
    obtain ⟨p1, p2, p3, p4⟩ := step_preserve env i s cs hs
    simp only [runLoop]
    by_cases h : solventCount (step env i s cs).simState.agents = 0
    · rw [if_pos h]
      exact ⟨p1, p2, p3⟩
    · rw [if_neg h]
      have hs2 : (step env i s cs).simState.scheduleSteps ≠ 0 := by omega
      obtain ⟨q1, q2, q3⟩ := ih (i + 1) (step env i s cs).simState
        (step env i s cs).classState hs2
      exact ⟨q1.trans p1, q2.trans p2, q3.trans p3⟩

theorem runLoop_lst_extends (env : Env) (sc : Nat) :
    ∀ (rem i : Nat) (s : SimState) (cs : ClassState),
      (∃ t, (runLoop env sc rem i s cs).classState.lst_bank_ratio = cs.lst_bank_ratio ++ t) ∧
      (∃ t, (runLoop env sc rem i s cs).classState.lst_ibloan = cs.lst_ibloan ++ t) := by
  intro rem
  induction rem with
  | zero => intro i s cs; exact ⟨⟨[], by simp [runLoop]⟩, ⟨[], by simp [runLoop]⟩⟩
  | succ m ih =>
    intro i s cs
    obtain ⟨⟨t1, h1⟩, ⟨t2, h2⟩⟩ := step_lst_extends env i s cs
    simp only [runLoop]
    by_cases h : solventCount (step env i s cs).simState.agents = 0
    · rw [if_pos h]
      exact ⟨⟨t1, h1⟩, ⟨t2, h2⟩⟩
    · rw [if_neg h]
      obtain ⟨⟨u1, g1⟩, ⟨u2, g2⟩⟩ := ih (i + 1) (step env i s cs).simState
        (step env i s cs).classState
      refine ⟨⟨t1 ++ u1, ?_⟩, ⟨t2 ++ u2, ?_⟩⟩
      · rw [g1, h1, List.append_assoc]
      · rw [g2, h2, List.append_assoc]

theorem randomChoice_ok (pick : Nat) (l : List Nat) (hne : l ≠ []) :
    ∃ x, randomChoice pick l = .ok x ∧ x ∈ l := by
  cases l with
  | nil => exact absurd rfl hne
  | cons a t => exact ⟨_, rfl, List.get_mem _ _ _⟩

theorem placeSavers_ok (cenv : ConstructEnv) (nodes : List Nat) (hne : nodes ≠ []) :
    ∀ (n uid k : Nat), ∃ l, placeSavers cenv nodes uid k n = .ok l ∧ l.length = n ∧
      ∀ a ∈ l, (∃ u q, a = Agent.saver u q) ∧ agentPos a ∈ nodes := by
  intro n
  induction n with
  | zero => intro uid k; exact ⟨[], rfl, rfl, by simp⟩
  | succ m ih =>
    intro uid k
    obtain ⟨x, hx, hxm⟩ := randomChoice_ok (cenv.pick k) nodes hne
    obtain ⟨l, hl, hlen, hmem⟩ := ih (uid + 1) (k + 1)
    refine ⟨Agent.saver uid x :: l, ?_, by simp [hlen], ?_⟩
    · simp [placeSavers, hx, hl, Bind.bind, Except.bind, Pure.pure, Except.pure]
    · intro a ha
      rcases List.mem_cons.mp ha with h1 | h2
      · subst h1; exact ⟨⟨uid, x, rfl⟩, hxm⟩
      · exact hmem a h2

theorem placeLoans_ok (cenv : ConstructEnv) (nodes : List Nat) (hne : nodes ≠ []) :
    ∀ (n uid k : Nat), ∃ l, placeLoans cenv nodes uid k n = .ok l ∧ l.length = n ∧
      ∀ a ∈ l, (∃ u q, a = Agent.loan u q q) ∧ agentPos a ∈ nodes := by
  intro n
  induction n with
  | zero => intro uid k; exact ⟨[], rfl, rfl, by simp⟩
  | succ m ih =>
    intro uid k
    obtain ⟨x, hx, hxm⟩ := randomChoice_ok (cenv.pick k) nodes hne
    obtain ⟨l, hl, hlen, hmem⟩ := ih (uid + 1) (k + 1)
    refine ⟨Agent.loan uid x x :: l, ?_, by simp [hlen], ?_⟩
    · simp [placeLoans, hx, hl, Bind.bind, Except.bind, Pure.pure, Except.pure]
    · intro a ha
      rcases List.mem_cons.mp ha with h1 | h2
      · subst h1; exact ⟨⟨uid, x, rfl⟩, hxm⟩
      · exact hmem a h2

theorem placeSavers_err (cenv : ConstructEnv) (uid k n : Nat) (hn : 1 ≤ n) :
    placeSavers cenv [] uid k n = .error .indexError := by
  cases n with
  | zero => omega
  | succ m => simp [placeSavers, randomChoice, Bind.bind, Except.bind, Pure.pure, Except.pure]

theorem placeLoans_err (cenv : ConstructEnv) (uid k n : Nat) (hn : 1 ≤ n) :
    placeLoans cenv [] uid k n = .error .indexError := by
  cases n with
  | zero => omega
  | succ m => simp [placeLoans, randomChoice, Bind.bind, Except.bind, Pure.pure, Except.pure]

theorem buildBankSim_ok (cenv : ConstructEnv) (hw w S L B : Nat) (hB : 1 ≤ B)
    (hdb : cenv.dbFileExists = true) :
    ∃ m, buildBankSim cenv hw w S L B = .ok m ∧
      m.G.nodes.length = B ∧ m.G.edges = [] ∧
      (m.agents.filter isBank).length = B ∧
      (m.agents.filter isSaver).length = S ∧
      (m.agents.filter isLoan).length = L ∧
      ∀ a ∈ m.agents, agentPos a ∈ m.G.nodes := by
  have hne : (List.range B) ≠ [] := by simp [List.range_eq_nil]; omega
  obtain ⟨savers, hs, hslen, hsmem⟩ := placeSavers_ok cenv (List.range B) hne S (B + 1) 0
  obtain ⟨loans, hl, hllen, hlmem⟩ := placeLoans_ok cenv (List.range B) hne L (B + S + 1) S
  set banks := (List.range B).map fun i => Agent.bank (i + 1) i true with hbanks
  have hbmem : ∀ a ∈ banks, ∃ i, i ∈ List.range B ∧ a = Agent.bank (i + 1) i true := by
    intro a ha
    obtain ⟨i, hi, hia⟩ := List.mem_map.mp ha
    exact ⟨i, hi, hia.symm⟩
  refine ⟨⟨hw, w, S, L, B, 1, ⟨List.range B, []⟩, banks ++ savers ++ loans, true, 1⟩, ?_, ?_, rfl,
    ?_, ?_, ?_, ?_⟩
  · simp [buildBankSim, hdb, hs, hl, initialize_deposit_base, initialize_loan_book, hbanks,
      Bind.bind, Except.bind, Pure.pure, Except.pure]
  · exact List.length_range B
  · show ((banks ++ savers ++ loans).filter isBank).length = B
    rw [List.filter_append, List.filter_append]
    rw [List.filter_eq_self.mpr (fun a ha => by obtain ⟨i, _, rfl⟩ := hbmem a ha; rfl)]
    rw [List.filter_eq_nil_iff.mpr
      (fun a ha => by obtain ⟨⟨u, q, rfl⟩, _⟩ := hsmem a ha; simp [isBank])]
    rw [List.filter_eq_nil_iff.mpr
      (fun a ha => by obtain ⟨⟨u, q, rfl⟩, _⟩ := hlmem a ha; simp [isBank])]
    simp [hbanks]
  · show ((banks ++ savers ++ loans).filter isSaver).length = S
    rw [List.filter_append, List.filter_append]
    rw [List.filter_eq_nil_iff.mpr
      (fun a ha => by obtain ⟨i, _, rfl⟩ := hbmem a ha; simp [isSaver])]
    rw [List.filter_eq_self.mpr
      (fun a ha => by obtain ⟨⟨u, q, rfl⟩, _⟩ := hsmem a ha; rfl)]
    rw [List.filter_eq_nil_iff.mpr
      (fun a ha => by obtain ⟨⟨u, q, rfl⟩, _⟩ := hlmem a ha; simp [isSaver])]
    simp [hslen]
  · show ((banks ++ savers ++ loans).filter isLoan).length = L
    rw [List.filter_append, List.filter_append]
    rw [List.filter_eq_nil_iff.mpr
      (fun a ha => by obtain ⟨i, _, rfl⟩ := hbmem a ha; simp [isLoan])]
    rw [List.filter_eq_nil_iff.mpr
      (fun a ha => by obtain ⟨⟨u, q, rfl⟩, _⟩ := hsmem a ha; simp [isLoan])]
    rw [List.filter_eq_self.mpr
      (fun a ha => by obtain ⟨⟨u, q, rfl⟩, _⟩ := hlmem a ha; rfl)]
    simp [hllen]
  · intro a ha
    show agentPos a ∈ List.range B
    rcases List.mem_append.mp ha with hab | hally
    · rcases List.mem_append.mp hab with hb | hsv
      · obtain ⟨i, hi, rfl⟩ := hbmem a hb
        simpa [agentPos] using hi
      · exact (hsmem a hsv).2
    · exact (hlmem a hally).2

theorem buildBankSim_err (cenv : ConstructEnv) (hw w S L : Nat)
    (hdb : cenv.dbFileExists = true) (hSL : 1 ≤ S ∨ 1 ≤ L) :
    buildBankSim cenv hw w S L 0 = .error .indexError := by
  rcases hSL with hS | hL
  · simp [buildBankSim, hdb, List.range_zero, Bind.bind, Except.bind, Pure.pure, Except.pure,
      placeSavers_err cenv (0 + 1) 0 S hS]
  · cases S with
    | zero =>
      simp [buildBankSim, hdb, List.range_zero, placeSavers, Bind.bind, Except.bind, Pure.pure,
        Except.pure, placeLoans_err cenv (0 + 0 + 1) 0 L hL]
    | succ m =>
      simp [buildBankSim, hdb, List.range_zero, Bind.bind, Except.bind, Pure.pure, Except.pure,
        placeSavers_err cenv (0 + 1) 0 (m + 1) (Nat.succ_le_succ (Nat.zero_le m))]

/-- C1, counterexample.  The claim says the run record is inserted
exactly once per run, on the first `step()` call and never on a later
one, even when an earlier `step()` call raised a contained error.  In
the run below, call 0 raises inside stage 1 (after the first-call block
ran), the run loop contains the error, and because `self.schedule.steps`
never advanced, call 1 re-enters the first-call block: two connections
are opened and two run-record rows are inserted in one `run_model`
call. -/
theorem claim_C1_cex :
    (run_model envFaultFirst 2 sInit csInit).raisedHist = [true, false] ∧
    (run_model envFaultFirst 2 sInit csInit).simState.runRecordInserts.length = 2 ∧
    (run_model envFaultFirst 2 sInit csInit).simState.connOpens = 2 := by decide

/-- C1, amended.  The run-record insert is guarded by the scheduler step
counter being 0, not by a per-run flag.  Provided the first `step()`
call does not raise (so the scheduler advances), a run of at least one
step opens the connection, mints the run id and inserts the run record
exactly once, on the first call, and never on any later call. -/
theorem claim_C1 (env : Env) (sc : Nat) (s : SimState) (cs : ClassState)
    (hf : env.fault 0 = none) (h0 : s.scheduleSteps = 0) (hr : s.runRecordInserts = [])
    (hc : s.connOpens = 0) (hsc : 1 ≤ sc) :
    (run_model env sc s cs).simState.runRecordInserts =
      [⟨strftimeYmdHMS (env.localNow 0), "test", env.utcNow 0⟩] ∧
    (run_model env sc s cs).simState.connOpens = 1 ∧
    (run_model env sc s cs).simState.simid = some (strftimeYmdHMS (env.localNow 0)) := by
  have hstep := step_noFault_first env 0 s cs hf h0
  have h1 : (step env 0 s cs).simState.runRecordInserts =
      [⟨strftimeYmdHMS (env.localNow 0), "test", env.utcNow 0⟩] := by rw [hstep]; simp [hr]
  have h2 : (step env 0 s cs).simState.connOpens = 1 := by rw [hstep]; simp [hc]
  have h3 : (step env 0 s cs).simState.simid = some (strftimeYmdHMS (env.localNow 0)) := by
    rw [hstep]
  have h4 : (step env 0 s cs).simState.scheduleSteps ≠ 0 := by rw [hstep]; simp
  obtain ⟨m, rfl⟩ : ∃ m, sc = m + 1 := ⟨sc - 1, by omega⟩
  show (runLoop env (m + 1) (m + 1) 0 s cs).simState.runRecordInserts = _ ∧
    (runLoop env (m + 1) (m + 1) 0 s cs).simState.connOpens = 1 ∧
    (runLoop env (m + 1) (m + 1) 0 s cs).simState.simid = _
  simp only [runLoop]
  by_cases hz : solventCount (step env 0 s cs).simState.agents = 0
  · rw [if_pos hz]
    exact ⟨h1, h2, h3⟩
  · rw [if_neg hz]
    obtain ⟨q1, q2, q3⟩ := runLoop_preserve env (m + 1) m 1 (step env 0 s cs).simState
      (step env 0 s cs).classState h4
    exact ⟨q1.trans h1, q2.trans h2, q3.trans h3⟩

/-- C1, witness for the amended theorem at a concrete fault-free
3-step run. -/
theorem claim_C1_witness :
    envNoFault.fault 0 = none ∧ sInit.scheduleSteps = 0 ∧ sInit.runRecordInserts = [] ∧
    sInit.connOpens = 0 ∧ 1 ≤ 3 ∧
    ((run_model envNoFault 3 sInit csInit).simState.runRecordInserts =
      [⟨strftimeYmdHMS (envNoFault.localNow 0), "test", envNoFault.utcNow 0⟩] ∧
    (run_model envNoFault 3 sInit csInit).simState.connOpens = 1 ∧
    (run_model envNoFault 3 sInit csInit).simState.simid =
      some (strftimeYmdHMS (envNoFault.localNow 0))) :=
  ⟨rfl, rfl, rfl, rfl, by decide, claim_C1 envNoFault 3 sInit csInit rfl rfl rfl rfl (by decide)⟩

/-- C2.  For every environment (hence every placement of errors in
pipeline stages or persistence writes) and every run: `run_model`
returns normally (it is a total function of the environment, the bare
`except` containing every per-step error); the `raisedHist` ghost
records one entry per `step()` call; every call that raised has its
formatted traceback logged; and after any iteration `k` that leaves a
nonzero solvent-bank count, if `k` is not the last planned iteration
the loop proceeds to call `k + 1` — an error never terminates the run
early. -/
theorem claim_C2 (env : Env) (sc : Nat) (s : SimState) (cs : ClassState) :
    (run_model env sc s cs).raisedHist.length = (run_model env sc s cs).calls ∧
    (∀ k, (run_model env sc s cs).raisedHist[k]? = some true →
      LogMsg.traceback k ∈ (run_model env sc s cs).log) ∧
    (∀ k n, k + 1 < sc → (run_model env sc s cs).solvHist[k]? = some n → n ≠ 0 →
      k + 1 < (run_model env sc s cs).calls) := by
  refine ⟨runLoop_raisedHist_length env sc sc 0 s cs, ?_, ?_⟩
  · intro k hk
    have hm := runLoop_traceback_logged env sc sc 0 s cs k hk
    simpa using hm
  · intro k n h1 h2 h3
    exact runLoop_continue env sc sc 0 s cs k n h1 h2 h3

/-- C2, witness: in the concrete run of `claim_C1_cex`, call 0 raised
and its traceback is in the log. -/
theorem claim_C2_witness :
    (run_model envFaultFirst 2 sInit csInit).raisedHist[0]? = some true ∧
    LogMsg.traceback 0 ∈ (run_model envFaultFirst 2 sInit csInit).log :=
  ⟨by decide, (claim_C2 envFaultFirst 2 sInit csInit).2.1 0 (by decide)⟩

/-- C3, counterexample.  The claim says that after any iteration with
zero solvent banks the loop logs the notice once and returns early with
fewer than `step_count` steps executed.  When all banks first become
insolvent on the final iteration, the notice is logged exactly once but
exactly `step_count` steps were executed — not fewer. -/
theorem claim_C3_cex :
    (run_model envAllInsolvent 1 sInit csInit).log.count LogMsg.allBankrupt = 1 ∧
    (run_model envAllInsolvent 1 sInit csInit).calls = 1 ∧
    ¬(run_model envAllInsolvent 1 sInit csInit).calls < 1 := by decide

/-- C3, amended.  After the first iteration whose post-step solvent-bank
count is zero, the loop logs the all-banks-bankrupt notice exactly once
(and only in that case), executes no further step (the total number of
`step()` calls is that iteration's index plus one, and the notice is the
final log entry), and the run returns with at most `step_count` steps —
strictly fewer whenever the zero-solvency iteration is not the last
planned one. -/
theorem claim_C3 (env : Env) (sc : Nat) (s : SimState) (cs : ClassState) :
    (run_model env sc s cs).calls ≤ sc ∧
    (run_model env sc s cs).solvHist.length = (run_model env sc s cs).calls ∧
    (∀ k, (run_model env sc s cs).solvHist[k]? = some 0 →
      (run_model env sc s cs).calls = k + 1) ∧
    ((run_model env sc s cs).log.count LogMsg.allBankrupt =
      if 0 ∈ (run_model env sc s cs).solvHist then 1 else 0) ∧
    (0 ∈ (run_model env sc s cs).solvHist →
      (run_model env sc s cs).log.getLast? = some LogMsg.allBankrupt) :=
  ⟨runLoop_calls_le env sc sc 0 s cs, runLoop_solvHist_length env sc sc 0 s cs,
    fun k => runLoop_stop_at_zero env sc sc 0 s cs k,
    runLoop_count_allBankrupt env sc sc 0 s cs,
    runLoop_last_allBankrupt env sc sc 0 s cs⟩

/-- C3, witness: a 2-step run goes all-bankrupt at iteration 0 and stops
after exactly one call — a genuine early return. -/
theorem claim_C3_witness :
    (run_model envAllInsolvent 2 sInit csInit).solvHist[0]? = some 0 ∧
    (run_model envAllInsolvent 2 sInit csInit).calls = 0 + 1 :=
  ⟨by decide, (claim_C3 envAllInsolvent 2 sInit csInit).2.2.1 0 (by decide)⟩

/-- C4, counterexample.  `self.simid = int(datetime.now().strftime(...))`
reads the local wall clock, while the run record's creation timestamp
uses `datetime.now(timezone.utc)`.  In a UTC+9 timezone at local time
2026-10-12 09:00:00 (UTC 2026-10-12 00:00:00), the minted run id is
20261012090000, the encoding of the local time — not of the UTC time as
the claim states. -/
theorem claim_C4_cex :
    (step envNoFault 0 sInit csInit).simState.simid =
      some (strftimeYmdHMS (envNoFault.localNow 0)) ∧
    strftimeYmdHMS (envNoFault.localNow 0) = 20261012090000 ∧
    strftimeYmdHMS (envNoFault.utcNow 0) = 20261012000000 ∧
    (step envNoFault 0 sInit csInit).simState.simid ≠
      some (strftimeYmdHMS (envNoFault.utcNow 0)) := by decide

/-- C4, amended.  On a non-raising first `step()` call the run id is
minted as the integer encoding YYYYMMDDHHMMSS of the LOCAL wall-clock
reading (`datetime.now()` with no timezone), and the run record is
inserted with that id, label "test" and the UTC wall-clock reading as
creation timestamp. -/
theorem claim_C4 (env : Env) (i : Nat) (s : SimState) (cs : ClassState)
    (hf : env.fault i = none) (h0 : s.scheduleSteps = 0) :
    (step env i s cs).simState.simid = some (strftimeYmdHMS (env.localNow i)) ∧
    (step env i s cs).simState.runRecordInserts =
      s.runRecordInserts ++ [⟨strftimeYmdHMS (env.localNow i), "test", env.utcNow i⟩] := by
  rw [step_noFault_first env i s cs hf h0]
  exact ⟨rfl, rfl⟩

/-- C4, witness for the amended theorem at the concrete clocks of
`envNoFault`. -/
theorem claim_C4_witness :
    envNoFault.fault 0 = none ∧ sInit.scheduleSteps = 0 ∧
    ((step envNoFault 0 sInit csInit).simState.simid =
      some (strftimeYmdHMS (envNoFault.localNow 0)) ∧
    (step envNoFault 0 sInit csInit).simState.runRecordInserts =
      sInit.runRecordInserts ++
        [⟨strftimeYmdHMS (envNoFault.localNow 0), "test", envNoFault.utcNow 0⟩]) :=
  ⟨rfl, rfl, claim_C4 envNoFault 0 sInit csInit rfl rfl⟩

/-- C5, counterexample.  The claim says connection and cursor are always
released on every failure, including a connection error.  If
`sqlite3.connect` succeeds but `conn.cursor()` raises, the `finally`
block's `db_cursor.close()` hits an unbound local, raises `NameError`,
and `conn.close()` never runs: the opened connection is not released. -/
theorem claim_C5_cex :
    (init_database ⟨true, false, true, true, true⟩).connOpened = true ∧
    (init_database ⟨true, false, true, true, true⟩).connClosed = false ∧
    (init_database ⟨true, false, true, true, true⟩).outcome = .nameError := by decide

/-- C5, amended.  Whenever the cursor was successfully acquired (which
covers success and every failure of the script open, the script
execution, or the commit), both the connection and the cursor are
released before `init_database` returns or raises; but when the
connection was acquired and cursor acquisition failed, the connection is
not released and the operation raises `NameError` instead of the generic
initialization error. -/
theorem claim_C5 (env : InitDbEnv) :
    ((init_database env).cursorOpened = true →
      (init_database env).connClosed = true ∧ (init_database env).cursorClosed = true) ∧
    ((init_database env).connOpened = true ∧ (init_database env).cursorOpened = false →
      (init_database env).connClosed = false ∧ (init_database env).outcome = .nameError) := by
  obtain ⟨a, b, c, d, e⟩ := env
  cases a <;> cases b <;> cases c <;> cases d <;> cases e <;> decide

/-- C5, witness: when the schema script is missing (its `open` raises),
both handles are released. -/
theorem claim_C5_witness :
    (init_database ⟨true, true, false, true, true⟩).cursorOpened = true ∧
    ((init_database ⟨true, true, false, true, true⟩).connClosed = true ∧
      (init_database ⟨true, true, false, true, true⟩).cursorClosed = true) :=
  ⟨by decide, (claim_C5 ⟨true, true, false, true, true⟩).1 (by decide)⟩

/-- C6.  Every non-raising `step()` call executes its call sites in the
fixed source order — the seven pipeline stages 1 through 7 (solvency
evaluation, second-round effects, risk-weight optimization, dividend
payment, reset insolvent loans, build loan book locally, build loan book
globally, liquidity evaluation), then the two result-list appends, then
the agent-bank snapshot insert restricted to Bank agents only, then the
commit, then the scheduler advance, then the data collection — preceded
on a first call by the connection/run-record block. -/
theorem claim_C6 (env : Env) (i : Nat) (s : SimState) (cs : ClassState)
    (hf : env.fault i = none) :
    (step env i s cs).trace =
      (if s.scheduleSteps = 0 then firstStepOps else []) ++ mainStepOps ∧
    (step env i s cs).raised = false ∧
    (step env i s cs).simState.snapshots = s.snapshots ++
      [⟨simidAtSnapshot env i s, s.scheduleSteps, (applyStages env i s.agents).filter isBank⟩] ∧
    (step env i s cs).classState.lst_bank_ratio =
      cs.lst_bank_ratio ++ bankRatioRecords s.scheduleSteps (applyStages env i s.agents) ∧
    (step env i s cs).classState.lst_ibloan = cs.lst_ibloan ++ env.ibRecords i ∧
    (step env i s cs).simState.commits = s.commits + 1 ∧
    (step env i s cs).simState.scheduleSteps = s.scheduleSteps + 1 ∧
    (step env i s cs).simState.collects = s.collects + 1 := by
  by_cases h0 : s.scheduleSteps = 0
  · simp [step_noFault_first env i s cs hf h0, simidAtSnapshot, h0, stepActions]
  · simp [step_noFault_later env i s cs hf h0, simidAtSnapshot, h0, stepActions]

/-- C6, witness at a concrete first call. -/
theorem claim_C6_witness :
    envNoFault.fault 0 = none ∧
    ((step envNoFault 0 sInit csInit).trace =
      (if sInit.scheduleSteps = 0 then firstStepOps else []) ++ mainStepOps ∧
    (step envNoFault 0 sInit csInit).raised = false ∧
    (step envNoFault 0 sInit csInit).simState.snapshots = sInit.snapshots ++
      [⟨simidAtSnapshot envNoFault 0 sInit, sInit.scheduleSteps,
        (applyStages envNoFault 0 sInit.agents).filter isBank⟩] ∧
    (step envNoFault 0 sInit csInit).classState.lst_bank_ratio =
      csInit.lst_bank_ratio ++
        bankRatioRecords sInit.scheduleSteps (applyStages envNoFault 0 sInit.agents) ∧
    (step envNoFault 0 sInit csInit).classState.lst_ibloan =
      csInit.lst_ibloan ++ envNoFault.ibRecords 0 ∧
    (step envNoFault 0 sInit csInit).simState.commits = sInit.commits + 1 ∧
    (step envNoFault 0 sInit csInit).simState.scheduleSteps = sInit.scheduleSteps + 1 ∧
    (step envNoFault 0 sInit csInit).simState.collects = sInit.collects + 1) :=
  ⟨rfl, claim_C6 envNoFault 0 sInit csInit rfl⟩

/-- C7.  For any valid parameter set (at least one bank; the configured
database file present so construction completes), construction succeeds
and yields a graph with exactly `initial_bank` nodes and zero edges, and
a population of exactly `initial_bank` Bank, `initial_saver` Saver and
`initial_loan` Loan agents, every agent being placed on an existing
graph node. -/
theorem claim_C7 (cenv : ConstructEnv) (hw w S L B : Nat) (hB : 1 ≤ B)
    (hdb : cenv.dbFileExists = true) :
    ∃ m, buildBankSim cenv hw w S L B = .ok m ∧
      m.G.nodes.length = B ∧ m.G.edges = [] ∧
      (m.agents.filter isBank).length = B ∧
      (m.agents.filter isSaver).length = S ∧
      (m.agents.filter isLoan).length = L ∧
      ∀ a ∈ m.agents, agentPos a ∈ m.G.nodes :=
  buildBankSim_ok cenv hw w S L B hB hdb

/-- C7, witness at a concrete 2-bank, 1-saver, 1-loan construction. -/
theorem claim_C7_witness :
    1 ≤ 2 ∧ cenvSmall.dbFileExists = true ∧
    (∃ m, buildBankSim cenvSmall 20 20 1 1 2 = .ok m ∧
      m.G.nodes.length = 2 ∧ m.G.edges = [] ∧
      (m.agents.filter isBank).length = 2 ∧
      (m.agents.filter isSaver).length = 1 ∧
      (m.agents.filter isLoan).length = 1 ∧
      ∀ a ∈ m.agents, agentPos a ∈ m.G.nodes) :=
  ⟨by decide, rfl, claim_C7 cenvSmall 20 20 1 1 2 (by decide) rfl⟩

/-- C8.  On every exit path — all iterations completed, early
all-bankrupt termination, contained per-step errors — `run_model`
returns exactly the pair of tabular datasets obtained by converting the
two accumulated result lists, and the lists only ever grow: the records
present when the run started are a prefix of the returned rows. -/
theorem claim_C8 (env : Env) (sc : Nat) (s : SimState) (cs : ClassState) :
    (run_model env sc s cs).dfBank =
      (convert_result2dataframe (run_model env sc s cs).classState.lst_bank_ratio
        (run_model env sc s cs).classState.lst_ibloan).1 ∧
    (run_model env sc s cs).dfIbloan =
      (convert_result2dataframe (run_model env sc s cs).classState.lst_bank_ratio
        (run_model env sc s cs).classState.lst_ibloan).2 ∧
    (∃ t, (run_model env sc s cs).dfBank.rows = cs.lst_bank_ratio ++ t) ∧
    (∃ t, (run_model env sc s cs).dfIbloan.rows = cs.lst_ibloan ++ t) :=
  ⟨rfl, rfl, (runLoop_lst_extends env sc sc 0 s cs).1, (runLoop_lst_extends env sc sc 0 s cs).2⟩

/-- C9.  The accumulation lists are class attributes: `__init__`
(embedded as `buildBankSim`, which neither receives nor returns a
`ClassState`) cannot clear or rebind them, so a second instance
constructed after a first instance's run starts from the first
instance's accumulated class state, and its `run_model` result contains
every record of the first run as a prefix. -/
theorem claim_C9 (cenv1 cenv2 : ConstructEnv) (hw1 w1 S1 L1 B1 hw2 w2 S2 L2 B2 : Nat)
    (env1 env2 : Env) (sc1 sc2 : Nat) (m1 m2 : BankSimModel)
    (_h1 : buildBankSim cenv1 hw1 w1 S1 L1 B1 = .ok m1)
    (_h2 : buildBankSim cenv2 hw2 w2 S2 L2 B2 = .ok m2) :
    (∃ t, (run_model env2 sc2 (toSimState m2)
        (run_model env1 sc1 (toSimState m1) csInit).classState).dfBank.rows =
      (run_model env1 sc1 (toSimState m1) csInit).classState.lst_bank_ratio ++ t) ∧
    (∃ t, (run_model env2 sc2 (toSimState m2)
        (run_model env1 sc1 (toSimState m1) csInit).classState).dfIbloan.rows =
      (run_model env1 sc1 (toSimState m1) csInit).classState.lst_ibloan ++ t) :=
  ⟨(runLoop_lst_extends env2 sc2 sc2 0 (toSimState m2)
      (run_model env1 sc1 (toSimState m1) csInit).classState).1,
    (runLoop_lst_extends env2 sc2 sc2 0 (toSimState m2)
      (run_model env1 sc1 (toSimState m1) csInit).classState).2⟩

/-- C9, witness at two concrete one-bank instances run for one step
each. -/
theorem claim_C9_witness :
    buildBankSim cenvSmall 20 20 0 0 1 = .ok mSmall ∧
    (∃ t, (run_model envNoFault 1 (toSimState mSmall)
        (run_model envNoFault 1 (toSimState mSmall) csInit).classState).dfBank.rows =
      (run_model envNoFault 1 (toSimState mSmall) csInit).classState.lst_bank_ratio ++ t) :=
  ⟨rfl, (claim_C9 cenvSmall cenvSmall 20 20 0 0 1 20 20 0 0 1 envNoFault envNoFault 1 1
    mSmall mSmall rfl rfl).1⟩

/-- C10.  With `initial_bank = 0` and a positive saver or loan count,
construction raises `IndexError` (`random.choice` over the empty node
list); with `initial_bank ≥ 1` every Saver and Loan placement succeeds
and construction returns a model. -/
theorem claim_C10 (cenv : ConstructEnv) (hw w S L B : Nat) (hdb : cenv.dbFileExists = true) :
    (B = 0 ∧ (1 ≤ S ∨ 1 ≤ L) → buildBankSim cenv hw w S L B = .error .indexError) ∧
    (1 ≤ B → ∃ m, buildBankSim cenv hw w S L B = .ok m) := by
  constructor
  · rintro ⟨rfl, hSL⟩
    exact buildBankSim_err cenv hw w S L hdb hSL
  · intro hB
    obtain ⟨m, hm, _⟩ := buildBankSim_ok cenv hw w S L B hB hdb
    exact ⟨m, hm⟩

/-- C10, witness: zero banks and one saver raise `IndexError`. -/
theorem claim_C10_witness :
    cenvSmall.dbFileExists = true ∧ ((0 : Nat) = 0 ∧ (1 ≤ 1 ∨ 1 ≤ (0 : Nat))) ∧
    buildBankSim cenvSmall 20 20 1 0 0 = .error .indexError :=
  ⟨rfl, ⟨rfl, Or.inl (by decide)⟩,
    (claim_C10 cenvSmall 20 20 1 0 0 rfl).1 ⟨rfl, Or.inl (by decide)⟩⟩

end BankSim
